import Mathlib

/-!
Shallow embedding of the background job-queue subsystem of the music-agency
web application, together with proofs of the specified properties.

The embedding covers:
* the Redis-backed job store and the queue module
  (`enqueueJob`, `processNextJob`, `completeJob`, `failJob`,
  `getJobStatus`, `getJobQueuePosition`, `getJobResult`);
* the two enqueue HTTP endpoints (lyrics and music);
* the job-status HTTP endpoint;
* the cron worker drain loop.

Modelling conventions:
* Redis `SETEX key ttl value` records the pair `(value, now + ttl)`; a `GET`
  at time `t` sees the value only while `t < expireAt`.  The key namespaces
  `job:`, `result:` and `error:` are modelled as three separate maps keyed
  by the job id.
* The pending list `queue:pending` holds full serialized job objects; JSON
  round-tripping (`JSON.parse ∘ JSON.stringify = id`) lets us store the
  job values themselves.  `LPUSH` prepends at the head of the list;
  `RPOP` removes the last element; `LRANGE 0 -1` is the list itself.
  No code path ever calls `EXPIRE`/`SETEX` on `queue:pending`, which we
  record in the (never written) `pendingExpireAt` field.
* The Upstash sliding-window limiter is an external collaborator; within a
  single window it admits a request exactly while tokens remain, a denied
  request consumes nothing.  We model its state as the count of admissions
  still available in the current window.
-/

namespace MusicAgencyQueue

/-- A key/value map with per-entry absolute expiry time, modelling the
Redis keys written with `SETEX`.  The head-most binding for a key wins. -/
abbrev KVMap (α : Type) := List (String × α × Nat)

/-- Entry lookup ignoring expiry (the raw stored binding, if any). -/
def kvFindEntry {α : Type} (m : KVMap α) (k : String) : Option (α × Nat) :=
  (m.find? (fun e => e.1 = k)).map (fun e => e.2)

/-- Redis `GET` at time `now`: the stored value, unless the entry expired. -/
def kvGet {α : Type} (m : KVMap α) (k : String) (now : Nat) : Option α :=
  match kvFindEntry m k with
  | some (v, expireAt) => if now < expireAt then some v else none
  | none => none

/-- Redis `SETEX k ttl v` at time `now`: overwrite the binding for `k`,
with expiry `now + ttl`. -/
def kvSetex {α : Type} (m : KVMap α) (k : String) (v : α) (ttl now : Nat) : KVMap α :=
  (k, v, now + ttl) :: m.filter (fun e => e.1 ≠ k)

/-- Job status tags: `'pending' | 'processing' | 'completed' | 'failed'`. -/
inductive JobStatus where
  | pending
  | processing
  | completed
  | failed
deriving DecidableEq, Repr

/-- Job payloads.  The lyrics endpoint builds `{story, moods}`; the music
endpoint builds `{endpoint, requestBody}` (the request body is opaque
structured data, kept as its serialized form). -/
inductive Payload where
  | lyrics (story : String) (moods : List String)
  | music (endpoint : String) (requestBody : String)
deriving DecidableEq, Repr

/-- The `QueueJob` record of `lib/queue.ts`. -/
structure QueueJob where
  id : String
  userId : String
  type : String
  payload : Payload
  status : JobStatus
  createdAt : Nat
  attempts : Nat
  error : Option String := none
deriving DecidableEq, Repr

/-- The shared Redis state used by the queue module.  `pending` is the list
`queue:pending` (head = `LPUSH` end); `jobRecords`, `results`, `errors`
are the `job:`/`result:`/`error:` key namespaces.  `pendingExpireAt`
records a TTL on `queue:pending` itself, were one ever assigned. -/
structure Store where
  pending : List QueueJob
  pendingExpireAt : Option Nat := none
  jobRecords : KVMap QueueJob := []
  results : KVMap String := []
  errors : KVMap String := []
deriving DecidableEq, Repr

/-- The queue system state: the sliding-window limiter's remaining
admissions for the `suno-api` key in the current window, and the store. -/
structure Sys where
  rl : Nat
  store : Store
deriving DecidableEq, Repr

/-- Redis `RPOP`: remove and return the last element of the list. -/
def rpop {α : Type} (l : List α) : Option (α × List α) :=
  match l.getLast? with
  | none => none
  | some a => some (a, l.dropLast)

/-- `ratelimit.limit('suno-api')` within one window: admit while admissions
remain; an admitted request consumes one slot, a denied one consumes none. -/
def tryAcquire (tokens : Nat) : Bool × Nat :=
  if 0 < tokens then (true, tokens - 1) else (false, tokens)

/-- `enqueueJob` (queue.ts:47-68): build the job with `status=pending`,
`attempts=0`, `createdAt=now`; `LPUSH` it onto `queue:pending`; `SETEX`
the job record with a 3600 s TTL.  The generated id (`Date.now()` plus a
random suffix) is passed in as `jobId`. -/
def enqueueJob (userId ty : String) (payload : Payload) (jobId : String)
    (now : Nat) (s : Store) : Store :=
  let queueJob : QueueJob :=
    { id := jobId, userId := userId, type := ty, payload := payload,
      status := .pending, createdAt := now, attempts := 0, error := none }
  { s with pending := queueJob :: s.pending,
           jobRecords := kvSetex s.jobRecords jobId queueJob 3600 now }

/-- The in-place mutation `processNextJob` applies to the popped job:
`status = processing`, `attempts += 1`. -/
def startJob (j : QueueJob) : QueueJob :=
  { j with status := .processing, attempts := j.attempts + 1 }

/-- `processNextJob` (queue.ts:73-101): check the rate limit (admission is
consumed whether or not a job is found); if admitted, `RPOP` the pending
list; on a job, set `status=processing`, increment `attempts`, `SETEX`
the record with a fresh 3600 s TTL, and return the job. -/
def processNextJob (now : Nat) (s : Sys) : Option QueueJob × Sys :=
  let a := tryAcquire s.rl
  if a.1 = false then
    (none, { s with rl := a.2 })
  else
    match rpop s.store.pending with
    | none => (none, { s with rl := a.2 })
    | some (j, rest) =>
      let job := startJob j
      (some job,
       { rl := a.2,
         store := { s.store with
                      pending := rest,
                      jobRecords := kvSetex s.store.jobRecords job.id job 3600 now } })

/-- `completeJob` (queue.ts:106-122): load the record; if absent, warn and
return; else set `status=completed`, `SETEX` the record and the result,
both with a 3600 s TTL. -/
def completeJob (jobId : String) (result : String) (now : Nat) (s : Store) : Store :=
  match kvGet s.jobRecords jobId now with
  | none => s
  | some j =>
    let job := { j with status := JobStatus.completed }
    { s with jobRecords := kvSetex s.jobRecords jobId job 3600 now,
             results := kvSetex s.results jobId result 3600 now }

/-- `failJob` (queue.ts:127-157): load the record; if absent, warn and
return; else record the error message; if `attempts < maxRetries`,
set `status=pending` and `LPUSH` back onto `queue:pending`; otherwise
set `status=failed` and write the error side-channel key. -/
def failJob (jobId errMsg : String) (maxRetries : Nat) (now : Nat) (s : Store) : Store :=
  match kvGet s.jobRecords jobId now with
  | none => s
  | some j =>
    let job := { j with error := some errMsg }
    if job.attempts < maxRetries then
      let retryJob := { job with status := JobStatus.pending }
      { s with pending := retryJob :: s.pending,
               jobRecords := kvSetex s.jobRecords jobId retryJob 3600 now }
    else
      let deadJob := { job with status := JobStatus.failed }
      { s with jobRecords := kvSetex s.jobRecords jobId deadJob 3600 now,
               errors := kvSetex s.errors jobId errMsg 3600 now }

/-- `getJobQueuePosition` (queue.ts:183-211): `LLEN` then `LRANGE 0 -1`
and a linear scan; returns `1 + index` of the first entry whose `id`
matches, or `undefined` when the queue is empty or the id is absent. -/
def getJobQueuePosition (pending : List QueueJob) (jobId : String) : Option Nat :=
  if pending.length = 0 then none
  else
    match pending.findIdx? (fun j => j.id = jobId) with
    | some i => some (i + 1)
    | none => none

/-- The value produced by `getJobStatus`: the job record, extended with
the optional queue position for pending jobs. -/
structure StatusView where
  job : QueueJob
  queuePosition : Option Nat := none
deriving DecidableEq, Repr

/-- `getJobStatus` (queue.ts:162-178): load the record; for a pending job,
attach its queue position. -/
def getJobStatus (s : Store) (now : Nat) (jobId : String) : Option StatusView :=
  match kvGet s.jobRecords jobId now with
  | none => none
  | some j =>
    if j.status = JobStatus.pending then
      some { job := j, queuePosition := getJobQueuePosition s.pending jobId }
    else
      some { job := j }

/-- `getJobResult` (queue.ts:216-224). -/
def getJobResult (s : Store) (now : Nat) (jobId : String) : Option String :=
  kvGet s.results jobId now

/-! ### HTTP endpoints -/

/-- JavaScript `x || 'anonymous'` on the optional `userId` field (absent or
empty string are falsy). -/
def orAnonymous (u : Option String) : String :=
  match u with
  | some s => if s = "" then "anonymous" else s
  | none => "anonymous"

/-- JavaScript `!x || !x.trim()` rejects exactly the absent, empty, or
all-whitespace strings; for a present string the test is "every character
is whitespace" (a trimmed string is empty iff all characters are
whitespace). -/
def isBlank (s : String) : Bool := s.data.all (fun c => c.isWhitespace)

/-- Request body of the lyrics enqueue endpoint: `{story, moods, userId}`. -/
structure LyricsRequestBody where
  story : Option String := none
  moods : Option (List String) := none
  userId : Option String := none
deriving DecidableEq, Repr

/-- Request body of the music enqueue endpoint:
`{endpoint, requestBody, userId}`. -/
structure MusicRequestBody where
  endpoint : Option String := none
  requestBody : Option String := none
  userId : Option String := none
deriving DecidableEq, Repr

/-- The lyrics enqueue endpoint `POST` handler: reject when `story` is
absent, empty or whitespace-only (`!story || !story.trim()`); otherwise
enqueue a job of type `lyrics` with payload `{story, moods: moods || []}`
and answer with the job id. -/
def lyricsEnqueuePOST (body : LyricsRequestBody) (jobId : String) (now : Nat)
    (s : Store) : Except String (String × Store) :=
  match body.story with
  | none => .error "Story is required"
  | some story =>
    if isBlank story then .error "Story is required"
    else
      .ok (jobId,
           enqueueJob (orAnonymous body.userId) "lyrics"
             (Payload.lyrics story (body.moods.getD [])) jobId now s)

/-- The music enqueue endpoint `POST` handler: reject when `endpoint` is
absent or blank or `requestBody` is falsy; otherwise enqueue a job of
type `music` with payload `{endpoint, requestBody}`. -/
def musicEnqueuePOST (body : MusicRequestBody) (jobId : String) (now : Nat)
    (s : Store) : Except String (String × Store) :=
  match body.endpoint with
  | none => .error "Endpoint is required"
  | some ep =>
    if isBlank ep then .error "Endpoint is required"
    else
      match body.requestBody with
      | none => .error "Request body is required"
      | some rb =>
        if rb = "" then .error "Request body is required"
        else
          .ok (jobId,
               enqueueJob (orAnonymous body.userId) "music"
                 (Payload.music ep rb) jobId now s)

/-- `Math.ceil(a / b)` for natural operands (`b > 0`). -/
def ceilDiv (a b : Nat) : Nat := (a + b - 1) / b

/-- The JSON object built by the job-status endpoint. -/
structure StatusResponse where
  jobId : String
  status : JobStatus
  type : String
  createdAt : Nat
  attempts : Nat
  maxRetries : Nat
  result : Option String := none
  error : Option String := none
  message : Option String := none
  queuePosition : Option Nat := none
  estimatedWaitSeconds : Option Nat := none
deriving DecidableEq, Repr

/-- JavaScript template interpolation of a possibly-undefined string. -/
def jsShow (o : Option String) : String :=
  match o with
  | some s => s
  | none => "undefined"

/-- The job-status endpoint `GET` handler (`app/api/job/[jobId]/route.ts`):
look the job up via `getJobStatus`; 404 when absent; then populate the
response per status.  For a pending job the queue position is attached
and, only on a first attempt with a defined (hence truthy) position, the
wait estimate `ceil(position / maxRequests) * 60` is included
(`cronIntervalSeconds = 60`, a hard-coded constant). -/
def jobStatusGET (maxRequests now : Nat) (s : Store) (jobId : String) :
    Except String StatusResponse :=
  if jobId = "" then .error "Job ID is required"
  else
    match getJobStatus s now jobId with
    | none => .error "Job not found"
    | some v =>
      let j := v.job
      let base : StatusResponse :=
        { jobId := j.id, status := j.status, type := j.type,
          createdAt := j.createdAt, attempts := j.attempts, maxRetries := 3 }
      match j.status with
      | .completed => .ok { base with result := getJobResult s now jobId }
      | .failed =>
        .ok { base with
                error := some (j.error.getD "Job failed"),
                message := some
                  (if 3 ≤ j.attempts then
                     "Generation failed after " ++ toString j.attempts ++
                     " attempts. Please try a fresh generation with different settings or try again later."
                   else "Failed: " ++ jsShow j.error) }
      | .pending =>
        let base := { base with queuePosition := v.queuePosition }
        if 0 < j.attempts then
          .ok { base with
                  message := some ("Retrying... (attempt " ++ toString (j.attempts + 1) ++ "/3)") }
        else
          match v.queuePosition with
          | some pos =>
            let cronIntervalSeconds := 60
            let est := ceilDiv pos maxRequests * cronIntervalSeconds
            .ok { base with
                    estimatedWaitSeconds := some est,
                    message := some
                      ("Your music is in the queue at position " ++ toString pos ++
                       ". Estimated wait: " ++ toString est ++ "s") }
          | none =>
            .ok { base with
                    message := some "Job is in the queue and will be processed soon..." }
      | .processing =>
        .ok { base with
                message := some
                  (if 1 < j.attempts then
                     "Creating your music... (retry " ++ toString j.attempts ++ "/3)"
                   else "Your music is being created right now! 🎵") }

/-! ### Cron worker -/

/-- The worker's per-job dispatch (add-diacritics route GET, lines
124-130): branch on the string `type` tag; an unknown tag throws
`Unknown job type`.  The lyrics and music handlers are opaque external
API calls, passed in as functions returning a result or a thrown
message. -/
def dispatch (hLyr hMus : Payload → Except String String) (j : QueueJob) :
    Except String String :=
  if j.type = "lyrics" then hLyr j.payload
  else if j.type = "music" then hMus j.payload
  else .error ("Unknown job type: " ++ j.type)

/-- Result of one worker invocation: the `processedCount` counter, the
number of `processNextJob` calls made (an observation instrumented for
the specification), the ids completed this invocation, and the final
system state. -/
structure WorkerResult where
  processed : Nat
  calls : Nat
  completed : List String
  final : Sys
deriving DecidableEq, Repr

/-- The worker drain loop (add-diacritics route GET, lines 110-139):
`while (processedCount < maxJobs)`: call `processNextJob`; stop on
`null`; else dispatch by type; on success `completeJob` and increment
`processedCount`; on a thrown error `failJob` with the default
`maxRetries = 3`.  The loop is written with an explicit `fuel`
parameter for structural recursion; every iteration that continues has
consumed one rate-limiter admission, so `fuel = rl + 1` at entry is
never exhausted before the loop's own exit (see `drainFuel_stable`). -/
def drainFuel (hLyr hMus : Payload → Except String String) (maxJobs now : Nat) :
    Nat → Sys → Nat → Nat → List String → WorkerResult
  | 0, s, processedCount, calls, done =>
    { processed := processedCount, calls := calls, completed := done, final := s }
  | fuel + 1, s, processedCount, calls, done =>
    if processedCount < maxJobs then
      match processNextJob now s with
      | (none, s') =>
        { processed := processedCount, calls := calls + 1, completed := done, final := s' }
      | (some j, s') =>
        match dispatch hLyr hMus j with
        | .ok r =>
          drainFuel hLyr hMus maxJobs now fuel
            { s' with store := completeJob j.id r now s'.store }
            (processedCount + 1) (calls + 1) (done ++ [j.id])
        | .error msg =>
          drainFuel hLyr hMus maxJobs now fuel
            { s' with store := failJob j.id msg 3 now s'.store }
            processedCount (calls + 1) done
    else
      { processed := processedCount, calls := calls, completed := done, final := s }

/-- One worker invocation's drain loop, started with zeroed counters and
enough fuel (`rl + 1`) that the fuel bound is never the reason the
loop stops. -/
def runWorkerLoop (hLyr hMus : Payload → Except String String)
    (maxRequests now : Nat) (s : Sys) : WorkerResult :=
  drainFuel hLyr hMus maxRequests now (s.rl + 1) s 0 0 []

/-- The worker trigger `GET` (add-diacritics route, lines 87-158): check
the bearer secret, then run the drain loop with
`maxJobs = maxRequests`; the JSON summary carries
`processed = processedCount` (the wall-clock `duration` field is real
time, outside the model). -/
def workerGET (hLyr hMus : Payload → Except String String)
    (authHeader cronSecret : String) (maxRequests now : Nat) (s : Sys) :
    Except String WorkerResult :=
  if authHeader = "Bearer " ++ cronSecret then
    .ok (runWorkerLoop hLyr hMus maxRequests now s)
  else
    .error "Unauthorized"

/-! ### Enqueue sequences -/

/-- One enqueue-endpoint call's parameters: the generated id, the caller's
fields, and the time of the call (`Date.now()`). -/
structure EnqueueReq where
  jobId : String
  userId : String
  type : String
  payload : Payload
  now : Nat
deriving DecidableEq, Repr

/-- The job record `enqueueJob` builds from one request. -/
def mkJob (r : EnqueueReq) : QueueJob :=
  { id := r.jobId, userId := r.userId, type := r.type, payload := r.payload,
    status := .pending, createdAt := r.now, attempts := 0, error := none }

/-- A sequence of `enqueueJob` calls, oldest first. -/
def enqueueAll (reqs : List EnqueueReq) (s : Store) : Store :=
  reqs.foldl (fun st r => enqueueJob r.userId r.type r.payload r.jobId r.now st) s

/-- The order in which repeated `RPOP` calls consume a list (last element
first); `popOrder_rpop` below characterises it against `rpop`. -/
def popOrder {α : Type} (l : List α) : List α := l.reverse

/-! ### Supporting lemmas -/

theorem rpop_nil {α : Type} : rpop ([] : List α) = none := rfl

theorem rpop_concat {α : Type} (l : List α) (a : α) : rpop (l ++ [a]) = some (a, l) := by
  simp [rpop, List.getLast?_concat, List.dropLast_concat]

theorem rpop_eq_some_iff {α : Type} {l rest : List α} {a : α} :
    rpop l = some (a, rest) ↔ l = rest ++ [a] := by
  constructor
  · intro h
    induction l using List.reverseRecOn with
    | nil => simp [rpop] at h
    | append_singleton l' b _ =>
      rw [rpop_concat] at h
      simp only [Option.some_inj, Prod.mk.injEq] at h
      rw [h.1, h.2]
  · intro h
    rw [h]
    exact rpop_concat rest a

theorem popOrder_rpop {α : Type} {l rest : List α} {a : α}
    (h : rpop l = some (a, rest)) : popOrder l = a :: popOrder rest := by
  rw [rpop_eq_some_iff] at h
  simp [h, popOrder]

theorem kvFindEntry_kvSetex_self {α : Type} (m : KVMap α) (k : String) (v : α)
    (ttl now : Nat) : kvFindEntry (kvSetex m k v ttl now) k = some (v, now + ttl) := by
  simp [kvFindEntry, kvSetex, List.find?]

theorem kvGet_kvSetex_self {α : Type} (m : KVMap α) (k : String) (v : α)
    {ttl now t : Nat} (h : t < now + ttl) :
    kvGet (kvSetex m k v ttl now) k t = some v := by
  simp [kvGet, kvFindEntry_kvSetex_self, h]

theorem enqueueAll_pending (reqs : List EnqueueReq) (s : Store) :
    (enqueueAll reqs s).pending = (reqs.map mkJob).reverse ++ s.pending := by
  induction reqs generalizing s with
  | nil => simp [enqueueAll]
  | cons r rest ih =>
    show (enqueueAll rest (enqueueJob r.userId r.type r.payload r.jobId r.now s)).pending = _
    rw [ih]
    simp [enqueueJob, mkJob]

/-- The record `failJob` re-enqueues when `attempts < maxRetries`. -/
def retryJobOf (j : QueueJob) (msg : String) : QueueJob :=
  { j with error := some msg, status := JobStatus.pending }

/-- The record `failJob` persists when retries are exhausted. -/
def failedJobOf (j : QueueJob) (msg : String) : QueueJob :=
  { j with error := some msg, status := JobStatus.failed }

/-! ### Sample data for concrete runs -/

def emptyStore : Store := { pending := [] }

def reqA : EnqueueReq :=
  { jobId := "A", userId := "u1", type := "lyrics",
    payload := .lyrics "first story" [], now := 0 }

def reqB : EnqueueReq :=
  { jobId := "B", userId := "u2", type := "lyrics",
    payload := .lyrics "second story" [], now := 0 }

/-- The store after enqueuing job `A` and then job `B`:
`queue:pending = [B, A]` (`LPUSH` prepends), so `RPOP` removes `A` next. -/
def storeAB : Store := enqueueAll [reqA, reqB] emptyStore

/-! ### Claims C1, C3, C4, C8, C9 -/

/-- **C1** (code bug at the failing input).  `getStatus` does compute
`queuePosition` as one plus the job's index in the pending-list snapshot
and omits it for ids not in the snapshot, but the first-to-be-processed
job does **not** always have `queuePosition 1`: after enqueuing `A` then
`B`, `A` is the job `pop` would remove next (last conjunct of the
snapshot, since `LPUSH` prepends and `RPOP` takes the tail), yet its
reported position is `2` while the most recently enqueued `B` gets `1`.
This contradicts the code's own comments (queue.ts:192,205), which say
index 0 is the next job in the queue. -/
theorem front_of_queue_position_bug :
    (rpop storeAB.pending).map (fun x => x.1.id) = some "A" ∧
    (getJobStatus storeAB 0 "A").map (fun v => v.queuePosition) = some (some 2) ∧
    (getJobStatus storeAB 0 "B").map (fun v => v.queuePosition) = some (some 1) ∧
    getJobQueuePosition storeAB.pending "C" = none := by decide

/-- **C3.**  For every sequence of `enqueue` calls with no concurrent
dequeue, starting from an empty pending list, `range()` (the snapshot)
lists the jobs in exact reverse order of enqueue insertion (oldest last),
and `pop` removes from the opposite end, so the oldest enqueued job is
always removed first and the remaining list is again the reverse-ordered
enqueue sequence of the remaining jobs (FIFO under a single consumer). -/
theorem enqueue_range_fifo_order (reqs : List EnqueueReq) (s : Store)
    (h : s.pending = []) :
    (enqueueAll reqs s).pending = (reqs.map mkJob).reverse ∧
    ∀ r rest, reqs = r :: rest →
      rpop (enqueueAll reqs s).pending = some (mkJob r, (rest.map mkJob).reverse) := by
  have hp := enqueueAll_pending reqs s
  rw [h, List.append_nil] at hp
  refine ⟨hp, ?_⟩
  rintro r rest rfl
  rw [hp]
  simp only [List.map_cons, List.reverse_cons]
  exact rpop_concat _ _

theorem enqueue_range_fifo_order_witness :
    (enqueueAll [reqA, reqB] emptyStore).pending = ([reqA, reqB].map mkJob).reverse ∧
    rpop (enqueueAll [reqA, reqB] emptyStore).pending
      = some (mkJob reqA, ([reqB].map mkJob).reverse) :=
  ⟨(enqueue_range_fifo_order [reqA, reqB] emptyStore rfl).1,
   (enqueue_range_fifo_order [reqA, reqB] emptyStore rfl).2 reqA [reqB] rfl⟩

/-- **C4.**  For every `fail(id, msg, maxRetries)` call where the record
exists: the error field is set to `msg`; when `attempts < maxRetries`
the job becomes pending again and is re-pushed at the push end, so under
the pop order it is processed only after every job currently pending;
when `attempts >= maxRetries` the job becomes failed, the record is
persisted and the message is written to the error side-channel. -/
theorem failJob_retry_spec (jobId errMsg : String) (maxRetries now : Nat)
    (s : Store) (j : QueueJob) (h : kvGet s.jobRecords jobId now = some j) :
    (j.attempts < maxRetries →
       failJob jobId errMsg maxRetries now s =
         { s with pending := retryJobOf j errMsg :: s.pending,
                  jobRecords := kvSetex s.jobRecords jobId (retryJobOf j errMsg) 3600 now } ∧
       popOrder (failJob jobId errMsg maxRetries now s).pending =
         popOrder s.pending ++ [retryJobOf j errMsg]) ∧
    (maxRetries ≤ j.attempts →
       failJob jobId errMsg maxRetries now s =
         { s with jobRecords := kvSetex s.jobRecords jobId (failedJobOf j errMsg) 3600 now,
                  errors := kvSetex s.errors jobId errMsg 3600 now }) := by
  constructor
  · intro hlt
    have he : failJob jobId errMsg maxRetries now s =
        { s with pending := retryJobOf j errMsg :: s.pending,
                 jobRecords := kvSetex s.jobRecords jobId (retryJobOf j errMsg) 3600 now } := by
      simp [failJob, h, retryJobOf, hlt]
    exact ⟨he, by rw [he]; simp [popOrder]⟩
  · intro hge
    simp [failJob, h, failedJobOf, Nat.not_lt.mpr hge]

def retryableJob : QueueJob :=
  { id := "Y", userId := "u", type := "music", payload := .music "ep" "rb",
    status := .processing, createdAt := 0, attempts := 1 }

def retryableStore : Store :=
  { pending := [mkJob reqA], jobRecords := [("Y", retryableJob, 3600)] }

def exhaustedJob : QueueJob :=
  { id := "X", userId := "u", type := "lyrics", payload := .lyrics "s" [],
    status := .processing, createdAt := 0, attempts := 3 }

def exhaustedStore : Store :=
  { pending := [], jobRecords := [("X", exhaustedJob, 3600)] }

theorem failJob_retry_spec_witness :
    (failJob "Y" "oops" 3 0 retryableStore =
       { retryableStore with
           pending := retryJobOf retryableJob "oops" :: retryableStore.pending,
           jobRecords := kvSetex retryableStore.jobRecords "Y"
             (retryJobOf retryableJob "oops") 3600 0 } ∧
     popOrder (failJob "Y" "oops" 3 0 retryableStore).pending =
       popOrder retryableStore.pending ++ [retryJobOf retryableJob "oops"]) ∧
    failJob "X" "dead" 3 0 exhaustedStore =
      { exhaustedStore with
          jobRecords := kvSetex exhaustedStore.jobRecords "X"
            (failedJobOf exhaustedJob "dead") 3600 0,
          errors := kvSetex exhaustedStore.errors "X" "dead" 3600 0 } :=
  ⟨(failJob_retry_spec "Y" "oops" 3 0 retryableStore retryableJob (by decide)).1 (by decide),
   (failJob_retry_spec "X" "dead" 3 0 exhaustedStore exhaustedJob (by decide)).2 (by decide)⟩

/-- **C8.**  When the job record for `id` is absent (for example expired
via its TTL), both `complete(id, result)` and `fail(id, msg)` leave the
whole store untouched: no record, result or error is written, nothing is
re-enqueued, and (both functions being total) no error reaches the
caller. -/
theorem missing_job_noop (jobId result errMsg : String) (maxRetries now : Nat)
    (s : Store) (h : kvGet s.jobRecords jobId now = none) :
    completeJob jobId result now s = s ∧ failJob jobId errMsg maxRetries now s = s := by
  constructor <;> simp [completeJob, failJob, h]

def expiredJob : QueueJob :=
  { id := "old", userId := "u", type := "music", payload := .music "ep" "rb",
    status := .processing, createdAt := 0, attempts := 1 }

/-- A store whose only record expired at time 5. -/
def expiredStore : Store := { pending := [], jobRecords := [("old", expiredJob, 5)] }

theorem missing_job_noop_witness :
    completeJob "old" "res" 10 expiredStore = expiredStore ∧
    failJob "old" "err" 3 10 expiredStore = expiredStore :=
  missing_job_noop "old" "res" "err" 3 10 expiredStore (by decide)

/-- **C9.**  Neither `completeJob` nor `failJob` inspects the current
status before transitioning: for any existing record — whatever its
status, including the terminal ones — `completeJob` rewrites it as
completed, and `failJob` with `attempts < maxRetries` rewrites it as
pending and re-pushes it onto the pending list. -/
theorem terminal_status_not_enforced (jobId result errMsg : String)
    (maxRetries now : Nat) (s : Store) (j : QueueJob)
    (h : kvGet s.jobRecords jobId now = some j) :
    kvGet (completeJob jobId result now s).jobRecords jobId now
      = some { j with status := JobStatus.completed } ∧
    (j.attempts < maxRetries →
       kvGet (failJob jobId errMsg maxRetries now s).jobRecords jobId now
         = some (retryJobOf j errMsg) ∧
       retryJobOf j errMsg ∈ (failJob jobId errMsg maxRetries now s).pending) := by
  constructor
  · simp only [completeJob, h]
    exact kvGet_kvSetex_self _ _ _ (by omega)
  · intro hlt
    simp only [failJob, h, retryJobOf, if_pos hlt]
    exact ⟨kvGet_kvSetex_self _ _ _ (by omega), List.mem_cons_self _ _⟩

def failedTerminalJob : QueueJob :=
  { id := "T", userId := "u", type := "music", payload := .music "ep" "rb",
    status := .failed, createdAt := 0, attempts := 1, error := some "old error" }

def terminalStore : Store :=
  { pending := [], jobRecords := [("T", failedTerminalJob, 3600)] }

theorem terminal_status_not_enforced_witness :
    kvGet (completeJob "T" "res" 0 terminalStore).jobRecords "T" 0
      = some { failedTerminalJob with status := JobStatus.completed } ∧
    (kvGet (failJob "T" "boom" 3 0 terminalStore).jobRecords "T" 0
       = some (retryJobOf failedTerminalJob "boom") ∧
     retryJobOf failedTerminalJob "boom" ∈ (failJob "T" "boom" 3 0 terminalStore).pending) := by
  have h := terminal_status_not_enforced "T" "res" "boom" 3 0 terminalStore
    failedTerminalJob (by decide)
  exact ⟨h.1, h.2 (by decide)⟩

/-! ### Claims C2, C10: processNextJob -/

theorem processNextJob_denied_eq {now : Nat} {s : Sys} (h : s.rl = 0) :
    processNextJob now s = (none, s) := by
  cases s with
  | mk rl store =>
    simp only at h
    subst h
    rfl

theorem processNextJob_empty_eq {now : Nat} {s : Sys} (h1 : 0 < s.rl)
    (h2 : s.store.pending = []) :
    processNextJob now s = (none, { s with rl := s.rl - 1 }) := by
  simp [processNextJob, tryAcquire, h1, h2, rpop_nil]

theorem processNextJob_pop_eq {now : Nat} {s : Sys} {l : List QueueJob} {j : QueueJob}
    (h1 : 0 < s.rl) (h2 : s.store.pending = l ++ [j]) :
    processNextJob now s =
      (some (startJob j),
       { rl := s.rl - 1,
         store := { s.store with
                      pending := l,
                      jobRecords := kvSetex s.store.jobRecords (startJob j).id
                        (startJob j) 3600 now } }) := by
  simp [processNextJob, tryAcquire, h1, h2, rpop_concat]

/-- **C2.**  `processNextJob` returns none whenever admission is denied
(no admissions left in the window), regardless of queue contents, and
leaves the state untouched; when admission is granted and the pending
list is empty it returns none with the admission consumed and not
refunded; when admission is granted and the pending list is non-empty it
removes the job at the pop end, marks it processing with `attempts`
incremented by exactly one, persists the record, and returns it. -/
theorem processNextJob_admission_spec (now : Nat) (s : Sys) :
    (s.rl = 0 → processNextJob now s = (none, s)) ∧
    (0 < s.rl → s.store.pending = [] →
       processNextJob now s = (none, { s with rl := s.rl - 1 })) ∧
    (∀ l j, 0 < s.rl → s.store.pending = l ++ [j] →
       processNextJob now s =
         (some (startJob j),
          { rl := s.rl - 1,
            store := { s.store with
                         pending := l,
                         jobRecords := kvSetex s.store.jobRecords (startJob j).id
                           (startJob j) 3600 now } })) :=
  ⟨fun h => processNextJob_denied_eq h,
   fun h1 h2 => processNextJob_empty_eq h1 h2,
   fun _ _ h1 h2 => processNextJob_pop_eq h1 h2⟩

def deniedSys : Sys := { rl := 0, store := storeAB }

def emptyQueueSys : Sys := { rl := 2, store := emptyStore }

def readySys : Sys := { rl := 2, store := { emptyStore with pending := [mkJob reqA] } }

theorem processNextJob_admission_spec_witness :
    processNextJob 0 deniedSys = (none, deniedSys) ∧
    processNextJob 0 emptyQueueSys = (none, { emptyQueueSys with rl := emptyQueueSys.rl - 1 }) ∧
    processNextJob 0 readySys =
      (some (startJob (mkJob reqA)),
       { rl := readySys.rl - 1,
         store := { readySys.store with
                      pending := [],
                      jobRecords := kvSetex readySys.store.jobRecords
                        (startJob (mkJob reqA)).id (startJob (mkJob reqA)) 3600 0 } }) :=
  ⟨(processNextJob_admission_spec 0 deniedSys).1 rfl,
   (processNextJob_admission_spec 0 emptyQueueSys).2.1 (by decide) rfl,
   (processNextJob_admission_spec 0 readySys).2.2 [] (mkJob reqA) (by decide) rfl⟩

/-- **C10.**  `processNextJob` obtains the returned job from the popped
pending-list entry itself, never from the per-job record: with admission
granted and a non-empty pending list it returns the (started) popped job
with **no hypothesis at all** on the record store — in particular when
the per-job record has expired or is absent — and the returned value is
unchanged under arbitrary replacement of the record store; it (re)writes
the job record with a fresh `now + 3600` expiry; and the pending list is
never assigned a TTL (`pendingExpireAt` is preserved by `processNextJob`
and untouched by `enqueueJob`, `completeJob` and `failJob`). -/
theorem processNextJob_record_independent (now : Nat) (s : Sys) (l : List QueueJob)
    (j : QueueJob) (hrl : 0 < s.rl) (hp : s.store.pending = l ++ [j]) :
    (processNextJob now s).1 = some (startJob j) ∧
    kvFindEntry (processNextJob now s).2.store.jobRecords j.id
      = some (startJob j, now + 3600) ∧
    (∀ m : KVMap QueueJob,
       (processNextJob now { s with store := { s.store with jobRecords := m } }).1
         = some (startJob j)) ∧
    (processNextJob now s).2.store.pendingExpireAt = s.store.pendingExpireAt ∧
    (∀ uid ty p id n st, (enqueueJob uid ty p id n st).pendingExpireAt = st.pendingExpireAt) ∧
    (∀ id r n st, (completeJob id r n st).pendingExpireAt = st.pendingExpireAt) ∧
    (∀ id msg mr n st, (failJob id msg mr n st).pendingExpireAt = st.pendingExpireAt) := by
  refine ⟨?_, ?_, ?_, ?_, ?_, ?_, ?_⟩
  · rw [processNextJob_pop_eq hrl hp]
  · rw [processNextJob_pop_eq hrl hp]
    exact kvFindEntry_kvSetex_self _ _ _ _ _
  · intro m
    rw [processNextJob_pop_eq (s := { s with store := { s.store with jobRecords := m } })
      hrl hp]
  · rw [processNextJob_pop_eq hrl hp]
  · intro uid ty p id n st
    rfl
  · intro id r n st
    unfold completeJob
    cases kvGet st.jobRecords id n <;> rfl
  · intro id msg mr n st
    unfold failJob
    cases kvGet st.jobRecords id n with
    | none => rfl
    | some jj =>
      dsimp only
      split <;> rfl

def expiredRecordSys : Sys := { rl := 1, store := { pending := [mkJob reqA] } }

theorem processNextJob_record_independent_witness :
    (processNextJob 7 expiredRecordSys).1 = some (startJob (mkJob reqA)) ∧
    kvFindEntry (processNextJob 7 expiredRecordSys).2.store.jobRecords (mkJob reqA).id
      = some (startJob (mkJob reqA), 7 + 3600) ∧
    (∀ m : KVMap QueueJob,
       (processNextJob 7 { expiredRecordSys with
           store := { expiredRecordSys.store with jobRecords := m } }).1
         = some (startJob (mkJob reqA))) ∧
    (processNextJob 7 expiredRecordSys).2.store.pendingExpireAt
      = expiredRecordSys.store.pendingExpireAt ∧
    (∀ uid ty p id n st, (enqueueJob uid ty p id n st).pendingExpireAt = st.pendingExpireAt) ∧
    (∀ id r n st, (completeJob id r n st).pendingExpireAt = st.pendingExpireAt) ∧
    (∀ id msg mr n st, (failJob id msg mr n st).pendingExpireAt = st.pendingExpireAt) :=
  processNextJob_record_independent 7 expiredRecordSys [] (mkJob reqA) (by decide) rfl

/-! ### Claim C5: the worker drain loop -/

theorem rpop_eq_none_iff {α : Type} {l : List α} : rpop l = none ↔ l = [] := by
  induction l using List.reverseRecOn with
  | nil => simp [rpop]
  | append_singleton l' b _ => simp [rpop_concat]

theorem processNextJob_some_inv {now : Nat} {s s' : Sys} {j : QueueJob}
    (h : processNextJob now s = (some j, s')) :
    0 < s.rl ∧ s'.rl = s.rl - 1 ∧
    ∃ j0, rpop s.store.pending = some (j0, s'.store.pending) ∧ j = startJob j0 ∧
      j0 ∈ s.store.pending ∧ s'.store.pending ⊆ s.store.pending := by
  by_cases hrl : 0 < s.rl
  · rcases hl : rpop s.store.pending with _ | ⟨j0, rest⟩
    · rw [processNextJob_empty_eq hrl (rpop_eq_none_iff.mp hl)] at h
      simp at h
    · have hp : s.store.pending = rest ++ [j0] := rpop_eq_some_iff.mp hl
      rw [processNextJob_pop_eq hrl hp] at h
      injection h with hj hs
      injection hj with hj
      subst hs
      refine ⟨hrl, rfl, j0, ?_, hj.symm, ?_, ?_⟩
      · rfl
      · rw [hp]; exact List.mem_append_right _ (List.mem_singleton_self j0)
      · rw [hp]; exact List.subset_append_left _ _
  · rw [processNextJob_denied_eq (Nat.eq_zero_of_not_pos hrl)] at h
    simp at h

theorem completeJob_pending (jobId result : String) (now : Nat) (s : Store) :
    (completeJob jobId result now s).pending = s.pending := by
  unfold completeJob
  cases kvGet s.jobRecords jobId now <;> rfl

theorem drainFuel_processed_completed (hLyr hMus : Payload → Except String String)
    (maxJobs now : Nat) :
    ∀ fuel s p c done,
      (drainFuel hLyr hMus maxJobs now fuel s p c done).processed + done.length
        = p + (drainFuel hLyr hMus maxJobs now fuel s p c done).completed.length := by
  intro fuel
  induction fuel with
  | zero => intro s p c done; simp [drainFuel]
  | succ fuel ih =>
    intro s p c done
    simp only [drainFuel]
    by_cases hp : p < maxJobs
    · rw [if_pos hp]
      rcases hpn : processNextJob now s with ⟨oj, s'⟩
      cases oj with
      | none => simp
      | some j =>
        dsimp only
        rcases hd : dispatch hLyr hMus j with msg | r
        · exact ih _ p (c + 1) done
        · have := ih { s' with store := completeJob j.id r now s'.store }
            (p + 1) (c + 1) (done ++ [j.id])
          simp only [List.length_append, List.length_cons, List.length_nil] at this ⊢
          omega
    · rw [if_neg hp]

theorem drainFuel_processed_le (hLyr hMus : Payload → Except String String)
    (maxJobs now : Nat) :
    ∀ fuel s p c done, p ≤ maxJobs →
      (drainFuel hLyr hMus maxJobs now fuel s p c done).processed ≤ maxJobs := by
  intro fuel
  induction fuel with
  | zero => intro s p c done hle; simpa [drainFuel] using hle
  | succ fuel ih =>
    intro s p c done hle
    simp only [drainFuel]
    by_cases hp : p < maxJobs
    · rw [if_pos hp]
      rcases hpn : processNextJob now s with ⟨oj, s'⟩
      cases oj with
      | none => simpa using hle
      | some j =>
        dsimp only
        rcases hd : dispatch hLyr hMus j with msg | r
        · exact ih _ p (c + 1) done hle
        · exact ih _ (p + 1) (c + 1) (done ++ [j.id]) hp
    · rw [if_neg hp]
      exact hle

theorem drainFuel_calls_le (hLyr hMus : Payload → Except String String)
    (maxJobs now : Nat)
    (hL : ∀ q, ∃ r, hLyr q = .ok r) (hM : ∀ q, ∃ r, hMus q = .ok r) :
    ∀ fuel s p c done,
      (∀ j ∈ s.store.pending, j.type = "lyrics" ∨ j.type = "music") →
      (drainFuel hLyr hMus maxJobs now fuel s p c done).calls ≤ c + (maxJobs - p) := by
  intro fuel
  induction fuel with
  | zero => intro s p c done _; simp [drainFuel]
  | succ fuel ih =>
    intro s p c done hknown
    simp only [drainFuel]
    by_cases hp : p < maxJobs
    · rw [if_pos hp]
      rcases hpn : processNextJob now s with ⟨oj, s'⟩
      cases oj with
      | none => simp; omega
      | some j =>
        dsimp only
        obtain ⟨_, _, j0, hl, hj, hmem, hsub⟩ := processNextJob_some_inv hpn
        rcases hd : dispatch hLyr hMus j with msg | r
        · exfalso
          subst hj
          rcases hknown j0 hmem with hty | hty
          · obtain ⟨r, hr⟩ := hL j0.payload
            rw [show dispatch hLyr hMus (startJob j0) = hLyr j0.payload by
                  simp [dispatch, startJob, hty], hr] at hd
            exact Except.noConfusion hd
          · obtain ⟨r, hr⟩ := hM j0.payload
            rw [show dispatch hLyr hMus (startJob j0) = hMus j0.payload by
                  simp [dispatch, startJob, hty], hr] at hd
            exact Except.noConfusion hd
        · have hknown' : ∀ x ∈ ({ s' with
              store := completeJob j.id r now s'.store } : Sys).store.pending,
              x.type = "lyrics" ∨ x.type = "music" := by
            intro x hx
            simp only [completeJob_pending] at hx
            exact hknown x (hsub hx)
          have := ih { s' with store := completeJob j.id r now s'.store }
            (p + 1) (c + 1) (done ++ [j.id]) hknown'
          dsimp only
          omega
    · rw [if_neg hp]
      dsimp only
      omega

/-- The drain loop's `fuel` is an artifact of the embedding: any fuel
strictly above the remaining admission count gives the same result,
because every continuing iteration consumes one admission. -/
theorem drainFuel_stable (hLyr hMus : Payload → Except String String)
    (maxJobs now : Nat) :
    ∀ f g s p c done, s.rl < f → s.rl < g →
      drainFuel hLyr hMus maxJobs now f s p c done
        = drainFuel hLyr hMus maxJobs now g s p c done := by
  intro f
  induction f with
  | zero => intro g s p c done hf _; exact absurd hf (Nat.not_lt_zero _)
  | succ f ih =>
    intro g s p c done hf hg
    cases g with
    | zero => exact absurd hg (Nat.not_lt_zero _)
    | succ g =>
      simp only [drainFuel]
      by_cases hp : p < maxJobs
      · rw [if_pos hp, if_pos hp]
        rcases hpn : processNextJob now s with ⟨oj, s'⟩
        cases oj with
        | none => rfl
        | some j =>
          dsimp only
          obtain ⟨hrl, hrl', -⟩ := processNextJob_some_inv hpn
          rcases hd : dispatch hLyr hMus j with msg | r
          · exact ih g _ (p) (c + 1) done (by simp; omega) (by simp; omega)
          · exact ih g _ (p + 1) (c + 1) (done ++ [j.id]) (by simp; omega) (by simp; omega)
      · rw [if_neg hp, if_neg hp]

def boomHandler : Payload → Except String String := fun _ => .error "boom"

def failingSys : Sys := { rl := 2, store := storeAB }

/-- **C5** counterexample.  With `maxRequests = 2`, a fresh window
(`rl = 2`), two pending jobs and a handler that always throws, the drain
loop calls `dequeueNext` (`processNextJob`) **3** times — more than
`maxRequests` — because `processedCount` counts only successful
completions and the third call is needed to hit the rate-limit denial. -/
theorem worker_calls_counterexample :
    (runWorkerLoop boomHandler boomHandler 2 0 failingSys).calls = 3 ∧
    ¬ ((runWorkerLoop boomHandler boomHandler 2 0 failingSys).calls ≤ 2) := by decide

/-- **C5** (amended).  A Worker invocation repeatedly calls `dequeueNext`
until it returns none or `maxRequests` jobs have been completed, with
only successful completions counted toward the bound: the summary's
`processed` equals the number of jobs completed in the invocation and
never exceeds `maxRequests`; when every handler call succeeds and every
queued job carries a known type, `dequeueNext` is called at most
`maxRequests` times (with failing handlers it may be called more, as the
counterexample shows); and the loop stops as soon as `dequeueNext`
returns none, whether from rate limiting or an empty queue. -/
theorem worker_drain_amended_spec (hLyr hMus : Payload → Except String String)
    (maxRequests now : Nat) (s : Sys) :
    (runWorkerLoop hLyr hMus maxRequests now s).processed
      = (runWorkerLoop hLyr hMus maxRequests now s).completed.length ∧
    (runWorkerLoop hLyr hMus maxRequests now s).processed ≤ maxRequests ∧
    ((∀ q, ∃ r, hLyr q = .ok r) → (∀ q, ∃ r, hMus q = .ok r) →
       (∀ j ∈ s.store.pending, j.type = "lyrics" ∨ j.type = "music") →
       (runWorkerLoop hLyr hMus maxRequests now s).calls ≤ maxRequests) ∧
    (∀ s', 0 < maxRequests → processNextJob now s = (none, s') →
       runWorkerLoop hLyr hMus maxRequests now s
         = { processed := 0, calls := 1, completed := [], final := s' }) := by
  refine ⟨?_, ?_, ?_, ?_⟩
  · have h := drainFuel_processed_completed hLyr hMus maxRequests now (s.rl + 1) s 0 0 []
    simpa using h
  · exact drainFuel_processed_le hLyr hMus maxRequests now (s.rl + 1) s 0 0 []
      (Nat.zero_le _)
  · intro h1 h2 h3
    have h := drainFuel_calls_le hLyr hMus maxRequests now h1 h2 (s.rl + 1) s 0 0 [] h3
    simpa using h
  · intro s' hmax hnone
    unfold runWorkerLoop
    simp only [drainFuel, if_pos hmax, hnone]

def okHandler : Payload → Except String String := fun _ => .ok "done"

def noneSys : Sys := { rl := 0, store := storeAB }

theorem worker_drain_amended_spec_witness :
    (runWorkerLoop okHandler okHandler 2 0 failingSys).processed
      = (runWorkerLoop okHandler okHandler 2 0 failingSys).completed.length ∧
    (runWorkerLoop okHandler okHandler 2 0 failingSys).calls ≤ 2 ∧
    runWorkerLoop okHandler okHandler 2 0 noneSys
      = { processed := 0, calls := 1, completed := [], final := noneSys } :=
  ⟨(worker_drain_amended_spec okHandler okHandler 2 0 failingSys).1,
   (worker_drain_amended_spec okHandler okHandler 2 0 failingSys).2.2.1
     (fun _ => ⟨"done", rfl⟩) (fun _ => ⟨"done", rfl⟩) (by decide),
   (worker_drain_amended_spec okHandler okHandler 2 0 noneSys).2.2.2 noneSys
     (by decide) (by decide)⟩

/-! ### Claim C6: the wait estimate -/

def retryingJob : QueueJob :=
  { id := "R", userId := "u", type := "music", payload := .music "ep" "rb",
    status := .pending, createdAt := 0, attempts := 1, error := some "first failure" }

def retryingStore : Store :=
  { pending := [retryingJob], jobRecords := [("R", retryingJob, 3600)] }

/-- **C6** counterexample.  A pending job that is a retry
(`attempts = 1`) has a defined `queuePosition` (here `1`), yet the
response carries **no** `estimatedWaitSeconds`: the endpoint only
computes the estimate on the `attempts == 0` branch. -/
theorem estimatedWait_retry_counterexample :
    (jobStatusGET 20 0 retryingStore "R").toOption.map (fun r => r.status)
      = some JobStatus.pending ∧
    (jobStatusGET 20 0 retryingStore "R").toOption.bind (fun r => r.queuePosition)
      = some 1 ∧
    (jobStatusGET 20 0 retryingStore "R").toOption.bind (fun r => r.estimatedWaitSeconds)
      = none := by decide

/-- **C6** (amended).  For every status request on a pending job with a
defined `queuePosition` **whose `attempts` count is `0`** (not a retry),
the response includes
`estimatedWaitSeconds = ceil(queuePosition / maxRequests) * 60`, with
`cronIntervalSeconds = 60` a hard-coded deployment constant, not derived
dynamically.  (For a pending retry the endpoint shows a retry message
and omits the estimate — see the counterexample.) -/
theorem estimatedWait_formula_amended (maxRequests now : Nat) (s : Store)
    (jobId : String) (v : StatusView) (pos : Nat)
    (_hmax : 0 < maxRequests) (hid : jobId ≠ "")
    (hv : getJobStatus s now jobId = some v) (hst : v.job.status = .pending)
    (hpos : v.queuePosition = some pos) (hatt : v.job.attempts = 0) :
    ∃ resp, jobStatusGET maxRequests now s jobId = .ok resp ∧
      resp.estimatedWaitSeconds = some (ceilDiv pos maxRequests * 60) ∧
      resp.queuePosition = some pos := by
  simp only [jobStatusGET, if_neg hid, hv, hst, hatt, hpos]
  exact ⟨_, rfl, rfl, rfl⟩

def freshPendingJob : QueueJob :=
  { id := "P", userId := "u", type := "music", payload := .music "ep" "rb",
    status := .pending, createdAt := 0, attempts := 0 }

def freshPendingStore : Store :=
  { pending := [freshPendingJob], jobRecords := [("P", freshPendingJob, 3600)] }

theorem estimatedWait_formula_amended_witness :
    ∃ resp, jobStatusGET 20 0 freshPendingStore "P" = .ok resp ∧
      resp.estimatedWaitSeconds = some (ceilDiv 1 20 * 60) ∧
      resp.queuePosition = some 1 :=
  estimatedWait_formula_amended 20 0 freshPendingStore "P"
    { job := freshPendingJob, queuePosition := some 1 } 1
    (by decide) (by decide) (by decide) rfl rfl rfl

/-! ### Claim C7: enqueue-time validation -/

/-- **C7.**  The enqueue endpoints validate their payloads and only ever
admit jobs whose type is a known tag: every job a successful lyrics
(resp. music) enqueue pushes has type `lyrics` (resp. `music`) and a
present, validated payload, and the worker's dispatch on such a job runs
the matching handler — never the unknown-type failure path — so no
unknown-type submission can be accepted into the queue or fail later
during processing; a request with a missing or blank payload is rejected
at enqueue time with an error and nothing is enqueued. -/
theorem enqueue_endpoints_validation (bodyL : LyricsRequestBody)
    (bodyM : MusicRequestBody) (jobId : String) (now : Nat) (s : Store) :
    (∀ id s', lyricsEnqueuePOST bodyL jobId now s = .ok (id, s') →
       ∃ jb, s'.pending = jb :: s.pending ∧ jb.type = "lyrics" ∧
         jb.status = .pending ∧
         (∃ story moods, jb.payload = Payload.lyrics story moods ∧ isBlank story = false) ∧
         (∀ hLyr hMus, dispatch hLyr hMus jb = hLyr jb.payload)) ∧
    ((bodyL.story = none ∨ bodyL.story.map isBlank = some true) →
       lyricsEnqueuePOST bodyL jobId now s = .error "Story is required") ∧
    (∀ id s', musicEnqueuePOST bodyM jobId now s = .ok (id, s') →
       ∃ jb, s'.pending = jb :: s.pending ∧ jb.type = "music" ∧
         jb.status = .pending ∧
         (∃ ep rb, jb.payload = Payload.music ep rb ∧ isBlank ep = false ∧ rb ≠ "") ∧
         (∀ hLyr hMus, dispatch hLyr hMus jb = hMus jb.payload)) ∧
    ((bodyM.endpoint = none ∨ bodyM.endpoint.map isBlank = some true ∨
        bodyM.requestBody = none ∨ bodyM.requestBody = some "") →
       ∃ e, musicEnqueuePOST bodyM jobId now s = .error e) := by
  refine ⟨?_, ?_, ?_, ?_⟩
  · intro id s' h
    cases hst : bodyL.story with
    | none => simp [lyricsEnqueuePOST, hst] at h
    | some story =>
      simp only [lyricsEnqueuePOST, hst] at h
      by_cases hbl : isBlank story
      · rw [if_pos hbl] at h
        exact Except.noConfusion h
      · rw [if_neg hbl] at h
        injection h with h
        injection h with h1 h2
        refine ⟨{ id := jobId, userId := orAnonymous bodyL.userId, type := "lyrics",
                  payload := Payload.lyrics story (bodyL.moods.getD []),
                  status := .pending, createdAt := now, attempts := 0, error := none },
                ?_, rfl, rfl, ⟨story, bodyL.moods.getD [], rfl, Bool.of_not_eq_true hbl⟩,
                fun hLyr hMus => rfl⟩
        rw [← h2]
        rfl
  · intro hbad
    rcases hbad with hst | hbl
    · simp [lyricsEnqueuePOST, hst]
    · cases hso : bodyL.story with
      | none => rw [hso] at hbl; exact Option.noConfusion hbl
      | some story =>
        rw [hso] at hbl
        injection hbl with hbl
        simp [lyricsEnqueuePOST, hso, hbl]
  · intro id s' h
    cases hep : bodyM.endpoint with
    | none => simp [musicEnqueuePOST, hep] at h
    | some ep =>
      simp only [musicEnqueuePOST, hep] at h
      by_cases hbl : isBlank ep
      · rw [if_pos hbl] at h
        exact Except.noConfusion h
      · rw [if_neg hbl] at h
        cases hrb : bodyM.requestBody with
        | none => rw [hrb] at h; exact Except.noConfusion h
        | some rb =>
          rw [hrb] at h
          dsimp only at h
          by_cases hre : rb = ""
          · rw [if_pos hre] at h
            exact Except.noConfusion h
          · rw [if_neg hre] at h
            injection h with h
            injection h with h1 h2
            refine ⟨{ id := jobId, userId := orAnonymous bodyM.userId, type := "music",
                      payload := Payload.music ep rb,
                      status := .pending, createdAt := now, attempts := 0, error := none },
                    ?_, rfl, rfl, ⟨ep, rb, rfl, Bool.of_not_eq_true hbl, hre⟩,
                    fun hLyr hMus => rfl⟩
            rw [← h2]
            rfl
  · intro hbad
    rcases hbad with hep | hbl | hrb | hre
    · exact ⟨"Endpoint is required", by simp [musicEnqueuePOST, hep]⟩
    · cases heo : bodyM.endpoint with
      | none => rw [heo] at hbl; exact Option.noConfusion hbl
      | some ep =>
        rw [heo] at hbl
        injection hbl with hbl
        exact ⟨"Endpoint is required", by simp [musicEnqueuePOST, heo, hbl]⟩
    · cases heo : bodyM.endpoint with
      | none => exact ⟨"Endpoint is required", by simp [musicEnqueuePOST, heo]⟩
      | some ep =>
        by_cases hbl : isBlank ep
        · exact ⟨"Endpoint is required", by simp [musicEnqueuePOST, heo, hbl]⟩
        · exact ⟨"Request body is required", by simp [musicEnqueuePOST, heo, hbl, hrb]⟩
    · cases heo : bodyM.endpoint with
      | none => exact ⟨"Endpoint is required", by simp [musicEnqueuePOST, heo]⟩
      | some ep =>
        by_cases hbl : isBlank ep
        · exact ⟨"Endpoint is required", by simp [musicEnqueuePOST, heo, hbl]⟩
        · exact ⟨"Request body is required", by simp [musicEnqueuePOST, heo, hbl, hre]⟩

def okLyricsBody : LyricsRequestBody :=
  { story := some "a memory about music", moods := some ["happy"] }

def blankLyricsBody : LyricsRequestBody := { story := some "   " }

def okMusicBody : MusicRequestBody :=
  { endpoint := some "https://api.example/generate", requestBody := some "{}",
    userId := some "u9" }

def badMusicBody : MusicRequestBody := { endpoint := some "https://api.example/generate" }

theorem enqueue_endpoints_validation_witness :
    (∃ jb, (enqueueJob "anonymous" "lyrics"
         (Payload.lyrics "a memory about music" ["happy"]) "J1" 0 emptyStore).pending
           = jb :: emptyStore.pending ∧ jb.type = "lyrics" ∧
         jb.status = .pending ∧
         (∃ story moods, jb.payload = Payload.lyrics story moods ∧ isBlank story = false) ∧
         (∀ hLyr hMus, dispatch hLyr hMus jb = hLyr jb.payload)) ∧
    lyricsEnqueuePOST blankLyricsBody "J2" 0 emptyStore = .error "Story is required" ∧
    (∃ jb, (enqueueJob "u9" "music"
         (Payload.music "https://api.example/generate" "{}") "J3" 0 emptyStore).pending
           = jb :: emptyStore.pending ∧ jb.type = "music" ∧
         jb.status = .pending ∧
         (∃ ep rb, jb.payload = Payload.music ep rb ∧ isBlank ep = false ∧ rb ≠ "") ∧
         (∀ hLyr hMus, dispatch hLyr hMus jb = hMus jb.payload)) ∧
    (∃ e, musicEnqueuePOST badMusicBody "J4" 0 emptyStore = .error e) :=
  ⟨(enqueue_endpoints_validation okLyricsBody okMusicBody "J1" 0 emptyStore).1 "J1" _ rfl,
   (enqueue_endpoints_validation blankLyricsBody okMusicBody "J2" 0 emptyStore).2.1
     (Or.inr (by decide)),
   (enqueue_endpoints_validation okLyricsBody okMusicBody "J3" 0 emptyStore).2.2.1 "J3" _ rfl,
   (enqueue_endpoints_validation okLyricsBody badMusicBody "J4" 0 emptyStore).2.2.2
     (Or.inr (Or.inr (Or.inl rfl)))⟩

end MusicAgencyQueue
